import Mathlib

/-
Verification of the GoudEngine Python SDK core (sdks/python/goud_engine/bindings.py)
against its natural-language specification.

The SDK is a ctypes shim over a native Rust core.  Pure Python logic (wrapper
control flow, corner computation, `Rect.contains`, `Vec2.normalize`, the
context-manager protocol, the destroy guard) is embedded directly from the
source.  Native `goud_*` entry points are not part of the repository sources,
so they are modelled from the specification; each such definition carries a
doc comment starting with `Modelled from the spec:`.

Float parameters of exact comparisons are modelled by exact rationals (ℚ);
trigonometric and square-root operations are modelled over ℝ.
-/

set_option maxHeartbeats 1000000

namespace GoudEngine

/- ## Rational-valued geometry (Rect, collision queries) -/

/-- A 2D point with rational coordinates, modelling the float fields of the
source `Vec2` ctypes structure where only exact order comparisons occur. -/
structure Vec2Q where
  x : ℚ
  y : ℚ
deriving DecidableEq

/-- The source `Rect` ctypes structure: x, y, width, height. -/
structure Rect where
  x : ℚ
  y : ℚ
  width : ℚ
  height : ℚ
deriving DecidableEq

/-- Embedding of `Rect.contains` from bindings.py: the chained comparison
`self.x <= point.x < self.x + self.width and self.y <= point.y < self.y + self.height`. -/
def Rect.contains (r : Rect) (p : Vec2Q) : Bool :=
  decide (r.x ≤ p.x) && decide (p.x < r.x + r.width) &&
  decide (r.y ≤ p.y) && decide (p.y < r.y + r.height)

/-- Modelled from the spec: the native `goud_collision_aabb_overlap` (absent
from the sources; only its ctypes declaration and callers appear) takes two
boxes as opposing corners and tests strict overlap on each axis,
`ax1 < bx2 && ax2 > bx1 && ay1 < by2 && ay2 > by1`. -/
def goud_collision_aabb_overlap
    (ax1 ay1 ax2 ay2 bx1 by1 bx2 by2 : ℚ) : Bool :=
  decide (ax1 < bx2) && decide (ax2 > bx1) &&
  decide (ay1 < by2) && decide (ay2 > by1)

/-- Embedding of `GoudGame.check_aabb_overlap` from bindings.py: the corners
passed to the native call are `(ax, ay, ax + aw, ay + ah)` and
`(bx, b_y, bx + bw, b_y + bh)`. -/
def check_aabb_overlap (ax ay aw ah bx b_y bw bh : ℚ) : Bool :=
  goud_collision_aabb_overlap ax ay (ax + aw) (ay + ah) bx b_y (bx + bw) (b_y + bh)

/-- C3: `check_aabb_overlap` on boxes given as (x, y, width, height) is true
iff `ax < bx + bw ∧ ax + aw > bx` and likewise on the y axis (corners computed
as x + width, y + height); the touching boxes A = (0,0,10,10), B = (10,0,10,10)
do not overlap, while B shifted left by 1 unit does overlap A. -/
theorem check_aabb_overlap_spec :
    (∀ ax ay aw ah bx b_y bw bh : ℚ,
      check_aabb_overlap ax ay aw ah bx b_y bw bh = true ↔
        (ax < bx + bw ∧ ax + aw > bx ∧ ay < b_y + bh ∧ ay + ah > b_y)) ∧
    check_aabb_overlap 0 0 10 10 10 0 10 10 = false ∧
    check_aabb_overlap 0 0 10 10 9 0 10 10 = true := by
  refine ⟨?_, by norm_num [check_aabb_overlap, goud_collision_aabb_overlap],
    by norm_num [check_aabb_overlap, goud_collision_aabb_overlap]⟩
  intro ax ay aw ah bx b_y bw bh
  simp [check_aabb_overlap, goud_collision_aabb_overlap, and_assoc]

/-- C4: `Rect.contains` is half-open on both axes: it returns true iff
`r.x ≤ p.x < r.x + r.width` and `r.y ≤ p.y < r.y + r.height`, so the left/top
edges are included and the right/bottom edges are excluded. -/
theorem rect_contains_spec (r : Rect) (p : Vec2Q) :
    r.contains p = true ↔
      (r.x ≤ p.x ∧ p.x < r.x + r.width ∧ r.y ≤ p.y ∧ p.y < r.y + r.height) := by
  simp [Rect.contains, and_assoc]

/- ## Entity handles and the generational allocator -/

/-- The 32-bit index/generation space of a packed handle. -/
def UINT32_MOD : Nat := 2 ^ 32

/-- The all-ones 64-bit invalid-handle sentinel (`GoudEntityId.INVALID`). -/
def INVALID_HANDLE : Nat := 2 ^ 64 - 1

/-- Largest usable slot count: the all-ones index is reserved so that a live
handle can never collide with the `INVALID_HANDLE` bit pattern. -/
def MAX_INDEX : Nat := 2 ^ 32 - 1

/-- A 64-bit handle packed from a 32-bit index (low bits) and a 32-bit
generation (high bits), as unpacked by `GoudContextId.__repr__`. -/
def packHandle (index generation : Nat) : Nat :=
  index % UINT32_MOD + generation % UINT32_MOD * UINT32_MOD

/-- One slot of the liveness table: generation counter plus live flag. -/
structure Slot where
  generation : Nat
  alive : Bool
deriving DecidableEq

/-- Modelled from the spec: the native entity allocator state (absent from the
sources) — a dense slot table of liveness and generation plus a free-list of
reusable slot indices. -/
structure EntityAllocator where
  slots : List Slot
  freeList : List Nat
deriving DecidableEq

/-- Modelled from the spec: the native `goud_entity_spawn_empty` allocator
step (absent from the sources).  Reuses a previously-despawned slot from the
free-list when available, otherwise grows the table by one slot at
generation 0; returns `INVALID_HANDLE` only on index-space exhaustion. -/
def EntityAllocator.spawn : EntityAllocator → Nat × EntityAllocator
  | ⟨slots, i :: rest⟩ =>
      let g := (slots.getD i ⟨0, false⟩).generation
      (packHandle i g, ⟨slots.set i ⟨g, true⟩, rest⟩)
  | ⟨slots, []⟩ =>
      if slots.length < MAX_INDEX then
        (packHandle slots.length 0, ⟨slots ++ [⟨0, true⟩], []⟩)
      else
        (INVALID_HANDLE, ⟨slots, []⟩)

/-- Well-formedness of an allocator state: free-list indices point into the
slot table and the table never exceeds the index space. -/
def EntityAllocator.Wf (a : EntityAllocator) : Prop :=
  (∀ i ∈ a.freeList, i < a.slots.length) ∧ a.slots.length ≤ MAX_INDEX

/-- Index-space exhaustion: no reusable slot and no room to grow. -/
def EntityAllocator.Exhausted (a : EntityAllocator) : Prop :=
  a.freeList = [] ∧ MAX_INDEX ≤ a.slots.length

theorem packHandle_mod (i g : Nat) :
    packHandle i g % UINT32_MOD = i % UINT32_MOD := by
  simp [packHandle, Nat.add_mul_mod_self_right]

theorem invalid_handle_mod : INVALID_HANDLE % UINT32_MOD = MAX_INDEX := by
  decide

theorem packHandle_ne_invalid {i : Nat} (g : Nat) (hi : i < MAX_INDEX) :
    packHandle i g ≠ INVALID_HANDLE := by
  intro heq
  have hmod := congrArg (· % UINT32_MOD) heq
  simp only [packHandle_mod, invalid_handle_mod] at hmod
  have hlt : i < UINT32_MOD := by
    have : MAX_INDEX < UINT32_MOD := by decide
    omega
  rw [Nat.mod_eq_of_lt hlt] at hmod
  omega

theorem spawn_exhausted {a : EntityAllocator} (h : a.Exhausted) :
    a.spawn = (INVALID_HANDLE, a) := by
  obtain ⟨slots, freeList⟩ := a
  obtain ⟨hf, hl⟩ := h
  simp only at hf hl
  subst hf
  simp [EntityAllocator.spawn, Nat.not_lt.mpr hl]

theorem spawn_eq_invalid_iff {a : EntityAllocator} (hwf : a.Wf) :
    (a.spawn).1 = INVALID_HANDLE ↔ a.Exhausted := by
  obtain ⟨slots, freeList⟩ := a
  obtain ⟨hfree, hlen⟩ := hwf
  cases freeList with
  | cons i rest =>
      have hi : i < slots.length := hfree i (by simp)
      have : i < MAX_INDEX := lt_of_lt_of_le hi hlen
      simp [EntityAllocator.spawn, packHandle_ne_invalid _ this,
        EntityAllocator.Exhausted]
  | nil =>
      by_cases hroom : slots.length < MAX_INDEX
      · simp [EntityAllocator.spawn, hroom, packHandle_ne_invalid _ hroom,
          EntityAllocator.Exhausted, Nat.not_le.mpr hroom]
      · simp [EntityAllocator.spawn, hroom, EntityAllocator.Exhausted,
          Nat.not_lt.mp hroom]

theorem spawn_wf {a : EntityAllocator} (hwf : a.Wf) : (a.spawn).2.Wf := by
  obtain ⟨slots, freeList⟩ := a
  obtain ⟨hfree, hlen⟩ := hwf
  cases freeList with
  | cons i rest =>
      simp only [EntityAllocator.spawn, EntityAllocator.Wf, List.length_set]
      exact ⟨fun j hj => hfree j (List.mem_cons_of_mem _ hj), hlen⟩
  | nil =>
      by_cases hroom : slots.length < MAX_INDEX
      · simp only [EntityAllocator.spawn, hroom, if_true]
        exact ⟨by simp, by simp; omega⟩
      · simp only [EntityAllocator.spawn, hroom, if_false]
        exact ⟨hfree, hlen⟩

/-- Modelled from the spec: n sequential calls of the native spawn, collecting
every per-call result (the reference behavior `spawn_batch` must match). -/
def EntityAllocator.spawnSeq (a : EntityAllocator) : Nat → List Nat × EntityAllocator
  | 0 => ([], a)
  | n + 1 =>
      let r := a.spawn
      let rest := r.2.spawnSeq n
      (r.1 :: rest.1, rest.2)

/-- Modelled from the spec: the native `goud_entity_spawn_batch` (absent from
the sources) — spawns up to `n` entities in allocation order, stopping early
exactly when a spawn fails with `INVALID_HANDLE`. -/
def EntityAllocator.spawnBatch (a : EntityAllocator) : Nat → List Nat × EntityAllocator
  | 0 => ([], a)
  | n + 1 =>
      let r := a.spawn
      if r.1 = INVALID_HANDLE then ([], r.2)
      else
        let rest := r.2.spawnBatch n
        (r.1 :: rest.1, rest.2)

theorem spawnSeq_exhausted {a : EntityAllocator} (h : a.Exhausted) (n : Nat) :
    a.spawnSeq n = (List.replicate n INVALID_HANDLE, a) := by
  induction n with
  | zero => simp [EntityAllocator.spawnSeq]
  | succ n ih =>
      simp [EntityAllocator.spawnSeq, spawn_exhausted h, ih,
        List.replicate_succ]

theorem spawnBatch_length_le (a : EntityAllocator) (n : Nat) :
    (a.spawnBatch n).1.length ≤ n := by
  induction n generalizing a with
  | zero => simp [EntityAllocator.spawnBatch]
  | succ n ih =>
      by_cases hinv : (a.spawn).1 = INVALID_HANDLE
      · simp [EntityAllocator.spawnBatch, hinv]
      · simpa [EntityAllocator.spawnBatch, hinv] using ih (a.spawn).2

theorem spawnBatch_short_exhausted {a : EntityAllocator} (hwf : a.Wf) (n : Nat)
    (hshort : (a.spawnBatch n).1.length < n) : ((a.spawnBatch n).2).Exhausted := by
  induction n generalizing a with
  | zero => simp at hshort
  | succ n ih =>
      by_cases hinv : (a.spawn).1 = INVALID_HANDLE
      · have hex : a.Exhausted := (spawn_eq_invalid_iff hwf).mp hinv
        have hs := spawn_exhausted hex
        simp [EntityAllocator.spawnBatch, hinv, hs]
        exact hex
      · have hwf2 : (a.spawn).2.Wf := spawn_wf hwf
        simp only [EntityAllocator.spawnBatch, hinv, if_false] at hshort ⊢
        simp only [List.length_cons] at hshort
        exact ih hwf2 (by omega)

theorem spawnBatch_eq_seq_filter {a : EntityAllocator} (hwf : a.Wf) (n : Nat) :
    a.spawnBatch n =
      ((a.spawnSeq n).1.filter (fun h => h != INVALID_HANDLE), (a.spawnSeq n).2) := by
  induction n generalizing a with
  | zero => simp [EntityAllocator.spawnBatch, EntityAllocator.spawnSeq]
  | succ n ih =>
      by_cases hinv : (a.spawn).1 = INVALID_HANDLE
      · have hex : a.Exhausted := (spawn_eq_invalid_iff hwf).mp hinv
        have hs := spawn_exhausted hex
        simp [EntityAllocator.spawnBatch, EntityAllocator.spawnSeq, hs,
          spawnSeq_exhausted hex, List.filter_replicate]
      · have hwf2 : (a.spawn).2.Wf := spawn_wf hwf
        simp [EntityAllocator.spawnBatch, EntityAllocator.spawnSeq, hinv,
          ih hwf2]

/- ## Python-level context operations -/

/-- Outcome of a Python call that either returns a handle or raises the
catchable `GoudEngineError` exception. -/
inductive SpawnOutcome where
  | ok (handle : Nat)
  | raisedGoudEngineError
deriving DecidableEq

/-- Embedding of `GoudContext.spawn_entity` from bindings.py: calls the native
spawn, raises `GoudEngineError` when the result equals the invalid sentinel,
and otherwise returns the handle. -/
def GoudContext.spawn_entity (a : EntityAllocator) : SpawnOutcome × EntityAllocator :=
  let r := a.spawn
  if r.1 = INVALID_HANDLE then (SpawnOutcome.raisedGoudEngineError, r.2)
  else (SpawnOutcome.ok r.1, r.2)

/-- Embedding of `GoudContext.spawn_entities` from bindings.py: the count is
passed to the native batch spawn through `c_uint32`, which wraps modulo 2^32,
and the first `actual` handles of the out array are returned. -/
def GoudContext.spawn_entities (a : EntityAllocator) (count : Nat) :
    List Nat × EntityAllocator :=
  a.spawnBatch (count % UINT32_MOD)

/-- An allocator whose whole index space is occupied by live slots. -/
def exhaustedAlloc : EntityAllocator :=
  ⟨List.replicate MAX_INDEX ⟨0, true⟩, []⟩

theorem exhaustedAlloc_exhausted : exhaustedAlloc.Exhausted :=
  ⟨rfl, by simp [exhaustedAlloc]⟩

/-- C1 counterexample: on allocator exhaustion, `GoudContext.spawn_entity`
does not report failure by returning the INVALID all-ones handle — it raises
`GoudEngineError` instead of returning anything. -/
theorem spawn_entity_cex :
    (GoudContext.spawn_entity exhaustedAlloc).1 ≠ SpawnOutcome.ok INVALID_HANDLE ∧
    (GoudContext.spawn_entity exhaustedAlloc).1 = SpawnOutcome.raisedGoudEngineError := by
  have hs := spawn_exhausted exhaustedAlloc_exhausted
  constructor <;> simp [GoudContext.spawn_entity, hs]

/-- C1 (amended): `GoudContext.spawn_entity` fails by raising the catchable
`GoudEngineError` exception (not by returning INVALID), and it does so exactly
when the native allocator is exhausted; on success the returned handle is
never equal to INVALID. -/
theorem spawn_entity_spec (a : EntityAllocator) (hwf : a.Wf) :
    ((GoudContext.spawn_entity a).1 = SpawnOutcome.raisedGoudEngineError ↔ a.Exhausted) ∧
    ∀ h : Nat, (GoudContext.spawn_entity a).1 = SpawnOutcome.ok h → h ≠ INVALID_HANDLE := by
  by_cases hinv : (a.spawn).1 = INVALID_HANDLE
  · refine ⟨?_, ?_⟩
    · simp [GoudContext.spawn_entity, hinv, (spawn_eq_invalid_iff hwf).mp hinv]
    · intro h hok
      simp [GoudContext.spawn_entity, hinv] at hok
  · refine ⟨?_, ?_⟩
    · simp only [GoudContext.spawn_entity, hinv, if_false]
      constructor
      · intro h; simp at h
      · intro hex
        exact absurd ((spawn_eq_invalid_iff hwf).mpr hex) hinv
    · intro h hok
      simp only [GoudContext.spawn_entity, hinv, if_false] at hok
      have : h = (a.spawn).1 := by
        cases hok; rfl
      rw [this]; exact hinv

/-- C1 witness: the failure/exhaustion equivalence instantiated at the empty
(well-formed, non-exhausted) allocator. -/
theorem spawn_entity_spec_witness :
    EntityAllocator.Wf ⟨[], []⟩ ∧
      ((GoudContext.spawn_entity ⟨[], []⟩).1 = SpawnOutcome.raisedGoudEngineError ↔
        EntityAllocator.Exhausted ⟨[], []⟩) :=
  ⟨⟨by simp, Nat.zero_le _⟩, (spawn_entity_spec ⟨[], []⟩ ⟨by simp, Nat.zero_le _⟩).1⟩

/-- C5 counterexample: at count 2^32 + 5 on the fresh empty allocator,
`spawn_entities` returns only 5 handles — the `c_uint32` wrap passes 5 to the
native batch — so it returns fewer than the requested count even though the
final allocator state is nowhere near exhaustion. -/
theorem spawn_entities_cex :
    (GoudContext.spawn_entities ⟨[], []⟩ (2 ^ 32 + 5)).1.length < 2 ^ 32 + 5 ∧
    ¬ ((GoudContext.spawn_entities ⟨[], []⟩ (2 ^ 32 + 5)).2).Exhausted := by
  have hval : GoudContext.spawn_entities ⟨[], []⟩ (2 ^ 32 + 5) =
      ([0, 1, 2, 3, 4],
       ⟨[⟨0, true⟩, ⟨0, true⟩, ⟨0, true⟩, ⟨0, true⟩, ⟨0, true⟩], []⟩) := by
    decide
  rw [hval]
  constructor
  · norm_num
  · intro hex
    obtain ⟨-, hlen⟩ := hex
    simp [MAX_INDEX] at hlen

/-- C5 (amended): `spawn_entities(n)` truncates the count modulo 2^32 (the
`c_uint32` argument conversion) before the native batch spawn; it returns at
most `n` handles — indeed at most `n % 2^32` — in allocation order, returns
fewer than `n % 2^32` only on allocator exhaustion, and is equivalent to
`n % 2^32` sequential spawns (same final state; the returned handles are the
sequential results with the trailing failed spawns dropped). -/
theorem spawn_entities_spec (a : EntityAllocator) (n : Nat) (hwf : a.Wf) :
    (GoudContext.spawn_entities a n).1.length ≤ n ∧
    (GoudContext.spawn_entities a n).1.length ≤ n % UINT32_MOD ∧
    ((GoudContext.spawn_entities a n).1.length < n % UINT32_MOD →
      ((GoudContext.spawn_entities a n).2).Exhausted) ∧
    GoudContext.spawn_entities a n =
      ((a.spawnSeq (n % UINT32_MOD)).1.filter (fun h => h != INVALID_HANDLE),
       (a.spawnSeq (n % UINT32_MOD)).2) :=
  ⟨le_trans (spawnBatch_length_le a (n % UINT32_MOD)) (Nat.mod_le n UINT32_MOD),
   spawnBatch_length_le a (n % UINT32_MOD),
   fun hshort => spawnBatch_short_exhausted hwf (n % UINT32_MOD) hshort,
   spawnBatch_eq_seq_filter hwf (n % UINT32_MOD)⟩

/-- C5 witness: the batch-size bounds instantiated at the empty allocator. -/
theorem spawn_entities_spec_witness :
    EntityAllocator.Wf ⟨[], []⟩ ∧
      (GoudContext.spawn_entities ⟨[], []⟩ 2).1.length ≤ 2 ∧
      (GoudContext.spawn_entities ⟨[], []⟩ 2).1.length ≤ 2 % UINT32_MOD :=
  ⟨⟨by simp, Nat.zero_le _⟩,
   (spawn_entities_spec ⟨[], []⟩ 2 ⟨by simp, Nat.zero_le _⟩).1,
   (spawn_entities_spec ⟨[], []⟩ 2 ⟨by simp, Nat.zero_le _⟩).2.1⟩

/- ## Context lifecycle (destroy, is_valid, context-manager protocol) -/

/-- Python-side wrapper state of a `GoudContext`: the `_destroyed` flag. -/
structure PyContext where
  destroyed : Bool
deriving DecidableEq

/-- Modelled from the spec: the native registry entry behind
`goud_context_destroy` and `goud_context_is_valid` (absent from the sources) —
a validity flag plus a count of release actions performed on it. -/
structure NativeContext where
  valid : Bool
  released : Nat
deriving DecidableEq

/-- Modelled from the spec: `goud_context_destroy` releases the owned
resources (counted here) and invalidates the native entry. -/
def goud_context_destroy (n : NativeContext) : NativeContext :=
  ⟨false, n.released + 1⟩

/-- Modelled from the spec: `goud_context_is_valid` reports the native
validity flag. -/
def goud_context_is_valid (n : NativeContext) : Bool :=
  n.valid

/-- Embedding of `GoudContext.destroy` from bindings.py: when `_destroyed` is
not yet set, call the native destroy and set the flag; otherwise do nothing. -/
def GoudContext.destroy : PyContext × NativeContext → PyContext × NativeContext
  | (c, n) => if c.destroyed then (c, n) else (⟨true⟩, goud_context_destroy n)

/-- Embedding of `GoudContext.is_valid` from bindings.py: false when
`_destroyed` is set, otherwise ask the native side. -/
def GoudContext.is_valid : PyContext × NativeContext → Bool
  | (c, n) => if c.destroyed then false else goud_context_is_valid n

/-- C2: `GoudContext.destroy` is idempotent — a second destroy returns the
state unchanged, in particular it performs no further release action — and
after a destroy `is_valid` returns false even though the wrapper object is
still reachable (the pair still exists). -/
theorem destroy_idempotent (s : PyContext × NativeContext) :
    GoudContext.destroy (GoudContext.destroy s) = GoudContext.destroy s ∧
    (GoudContext.destroy (GoudContext.destroy s)).2.released =
      (GoudContext.destroy s).2.released ∧
    GoudContext.is_valid (GoudContext.destroy s) = false := by
  obtain ⟨c, n⟩ := s
  by_cases h : c.destroyed <;>
    simp [GoudContext.destroy, GoudContext.is_valid, h]

/-- The three ways a Python `with` block can exit. -/
inductive ExitPath where
  | normal
  | earlyReturn
  | raised
deriving DecidableEq

/-- Embedding of `GoudContext.__exit__` from bindings.py: calls
`self.destroy()` regardless of the exception information passed to it. -/
def GoudContext.__exit__ (_excInfoPresent : Bool)
    (s : PyContext × NativeContext) : PyContext × NativeContext :=
  GoudContext.destroy s

/-- Python's `with`-statement protocol (language semantics, not repository
code): `__exit__` runs on every exit path of the block, receiving exception
information exactly on the raised path.  The argument `s` is the state when
the block exits. -/
def withStatement (s : PyContext × NativeContext) (path : ExitPath) :
    PyContext × NativeContext :=
  GoudContext.__exit__ (path == ExitPath.raised) s

/-- C7: using a `GoudContext` as a context manager invokes destroy on every
exit path — normal completion, early return, and raised exception alike — so
the context ends destroyed and invalid, with the native release performed
exactly once when it had not already happened. -/
theorem with_block_releases (s : PyContext × NativeContext) (path : ExitPath) :
    (withStatement s path).1.destroyed = true ∧
    GoudContext.is_valid (withStatement s path) = false ∧
    (withStatement s path).2.released =
      (if s.1.destroyed then s.2.released else s.2.released + 1) := by
  obtain ⟨c, n⟩ := s
  by_cases h : c.destroyed <;>
    cases path <;>
      simp [withStatement, GoudContext.__exit__, GoudContext.destroy,
        GoudContext.is_valid, goud_context_destroy, h]

/- ## Sprite component -/

/-- The source `FfiSprite` ctypes structure, float fields modelled by ℚ. -/
structure FfiSprite where
  texture_handle : Nat
  color_r : ℚ
  color_g : ℚ
  color_b : ℚ
  color_a : ℚ
  source_rect_x : ℚ
  source_rect_y : ℚ
  source_rect_width : ℚ
  source_rect_height : ℚ
  has_source_rect : Bool
  flip_x : Bool
  flip_y : Bool
  anchor_x : ℚ
  anchor_y : ℚ
  custom_size_x : ℚ
  custom_size_y : ℚ
  has_custom_size : Bool
deriving DecidableEq

/-- Modelled from the spec: the native `goud_sprite_with_color` (absent from
the sources) — returns a copy of the sprite with the colour tint replaced. -/
def goud_sprite_with_color (s : FfiSprite) (r g b a : ℚ) : FfiSprite :=
  { s with color_r := r, color_g := g, color_b := b, color_a := a }

/-- Modelled from the spec: the native `goud_sprite_set_color` (absent from
the sources) mutates the pointed-to struct in place; the value of the struct
after the call is returned here. -/
def goud_sprite_set_color (s : FfiSprite) (r g b a : ℚ) : FfiSprite :=
  { s with color_r := r, color_g := g, color_b := b, color_a := a }

/-- Embedding of `Sprite.with_color` from bindings.py: the receiver's struct
is passed to the native call by value, so it is left untouched, and the
returned struct is wrapped in a new `Sprite`.  The pair is (receiver's struct
after the call, struct of the returned sprite). -/
def Sprite.with_color (s : FfiSprite) (r g b a : ℚ) : FfiSprite × FfiSprite :=
  (s, goud_sprite_with_color s r g b a)

/-- Embedding of the `Sprite.color` property setter from bindings.py: the
receiver's struct is passed by reference to the native setter, so the
receiver's struct after the assignment is the mutated value. -/
def Sprite.color_setter (s : FfiSprite) (r g b a : ℚ) : FfiSprite :=
  goud_sprite_set_color s r g b a

/-- C6: `with_color` returns a new sprite value and leaves every field of the
receiver unchanged; the in-place colour setter does change the instance's
colour to the assigned one; and both styles produce identical resulting field
values. -/
theorem sprite_with_color_spec (s : FfiSprite) (r g b a : ℚ) :
    (Sprite.with_color s r g b a).1 = s ∧
    (Sprite.with_color s r g b a).2 =
      { s with color_r := r, color_g := g, color_b := b, color_a := a } ∧
    Sprite.color_setter s r g b a =
      { s with color_r := r, color_g := g, color_b := b, color_a := a } ∧
    (Sprite.with_color s r g b a).2 = Sprite.color_setter s r g b a :=
  ⟨rfl, rfl, rfl, rfl⟩

/- ## Frame timing -/

/-- Python-side state of `GoudGame` relevant to frame timing: `_delta_time`. -/
structure GameState where
  delta_time : ℚ
deriving DecidableEq

/-- Modelled from the spec: the wall-clock snapshot behind the native
`goud_window_poll_events` (absent from the sources). -/
structure WindowClock where
  lastPoll : ℚ
deriving DecidableEq

/-- Modelled from the spec: `goud_window_poll_events` at wall-clock instant
`now` returns the elapsed wall time since the previous call and records `now`
as the new last-poll instant. -/
def goud_window_poll_events (w : WindowClock) (now : ℚ) : ℚ × WindowClock :=
  (now - w.lastPoll, ⟨now⟩)

/-- Embedding of `GoudGame.begin_frame` from bindings.py: stores the native
poll result into `_delta_time` (the clear and renderer-begin calls do not
touch this state) and returns `self._delta_time`.  The triple is (returned
value, game state after, clock state after). -/
def GoudGame.begin_frame (_g : GameState) (w : WindowClock) (now : ℚ) :
    ℚ × GameState × WindowClock :=
  let r := goud_window_poll_events w now
  (r.1, ⟨r.1⟩, r.2)

/-- C9: `begin_frame` returns the elapsed wall time since the previous
`begin_frame` call (witnessed by the next call returning the difference of the
two instants), and after it returns the `delta_time` property equals the value
this call returned. -/
theorem begin_frame_spec (g g2 : GameState) (w : WindowClock) (now now2 : ℚ) :
    (GoudGame.begin_frame g w now).1 = now - w.lastPoll ∧
    (GoudGame.begin_frame g w now).2.1.delta_time = (GoudGame.begin_frame g w now).1 ∧
    (GoudGame.begin_frame g2 (GoudGame.begin_frame g w now).2.2 now2).1 = now2 - now := by
  simp [GoudGame.begin_frame, goud_window_poll_events]

/- ## Real-valued vector math and Transform2D -/

/-- The source `Vec2` value type over ℝ, used for the operations that involve
square roots and trigonometry. -/
structure Vec2 where
  x : ℝ
  y : ℝ

/-- Embedding of `Vec2.length` from bindings.py: `(x**2 + y**2) ** 0.5`. -/
noncomputable def Vec2.length (v : Vec2) : ℝ :=
  Real.sqrt (v.x ^ 2 + v.y ^ 2)

open Classical in
/-- Embedding of `Vec2.normalize` from bindings.py: returns `Vec2(0, 0)` when
the length is zero, otherwise the component-wise division `self / length`. -/
noncomputable def Vec2.normalize (v : Vec2) : Vec2 :=
  if v.length = 0 then ⟨0, 0⟩ else ⟨v.x / v.length, v.y / v.length⟩

/-- C10: `Vec2.normalize` is total — at the zero vector (whose length really
is zero, so the division guard fires) it returns `Vec2(0, 0)` instead of
dividing by zero, and on any vector of nonzero length it returns the
component-wise division by the length. -/
theorem vec2_normalize_spec (v : Vec2) :
    Vec2.normalize ⟨0, 0⟩ = ⟨0, 0⟩ ∧
    (v.length = 0 → v.normalize = ⟨0, 0⟩) ∧
    (v.length ≠ 0 → v.normalize = ⟨v.x / v.length, v.y / v.length⟩) := by
  have hzero : Vec2.length ⟨0, 0⟩ = 0 := by
    simp [Vec2.length]
  refine ⟨by simp [Vec2.normalize, hzero], fun h => by simp [Vec2.normalize, h],
    fun h => by simp [Vec2.normalize, h]⟩

theorem vec2_length_three_four : Vec2.length ⟨3, 4⟩ = 5 := by
  show Real.sqrt ((3 : ℝ) ^ 2 + (4 : ℝ) ^ 2) = 5
  rw [show ((3 : ℝ) ^ 2 + (4 : ℝ) ^ 2) = 5 ^ 2 by norm_num]
  exact Real.sqrt_sq (by norm_num)

/-- C10 witness: the nonzero-length branch instantiated at (3, 4), whose
length is 5. -/
theorem vec2_normalize_spec_witness :
    Vec2.length ⟨3, 4⟩ ≠ 0 ∧ Vec2.normalize ⟨3, 4⟩ = ⟨3 / 5, 4 / 5⟩ := by
  have hne : Vec2.length ⟨3, 4⟩ ≠ 0 := by
    rw [vec2_length_three_four]; norm_num
  refine ⟨hne, ?_⟩
  have h := (vec2_normalize_spec ⟨3, 4⟩).2.2 hne
  rw [h, vec2_length_three_four]

/-- The source `FfiTransform2D` ctypes structure over ℝ. -/
structure FfiTransform2D where
  position_x : ℝ
  position_y : ℝ
  rotation : ℝ
  scale_x : ℝ
  scale_y : ℝ

/-- Modelled from the spec: the native `goud_transform2d_from_rotation`
(absent from the sources) — the given rotation with default position (0, 0)
and scale (1, 1). -/
def goud_transform2d_from_rotation (rotation : ℝ) : FfiTransform2D :=
  ⟨0, 0, rotation, 1, 1⟩

/-- Modelled from the spec: the native `goud_transform2d_forward` (absent
from the sources) — `forward = (cos θ, sin θ)`. -/
noncomputable def goud_transform2d_forward (t : FfiTransform2D) : Vec2 :=
  ⟨Real.cos t.rotation, Real.sin t.rotation⟩

/-- Embedding of `Transform2D.from_rotation` from bindings.py: wraps the
native factory. -/
def Transform2D.from_rotation (rotation : ℝ) : FfiTransform2D :=
  goud_transform2d_from_rotation rotation

/-- Embedding of `Transform2D.forward` from bindings.py: wraps the native
direction query. -/
noncomputable def Transform2D.forward (t : FfiTransform2D) : Vec2 :=
  goud_transform2d_forward t

/-- C8: the forward vector of `from_rotation θ` is `(cos θ, sin θ)`; in
particular `from_rotation(0).forward()` is within 1e-3 of (1, 0) and
`from_rotation(π/2).forward()` is within 1e-3 of (0, 1). -/
theorem transform2d_from_rotation_forward_spec :
    (∀ θ : ℝ, Transform2D.forward (Transform2D.from_rotation θ) =
      ⟨Real.cos θ, Real.sin θ⟩) ∧
    |(Transform2D.forward (Transform2D.from_rotation 0)).x - 1| ≤ 1 / 1000 ∧
    |(Transform2D.forward (Transform2D.from_rotation 0)).y - 0| ≤ 1 / 1000 ∧
    |(Transform2D.forward (Transform2D.from_rotation (Real.pi / 2))).x - 0| ≤ 1 / 1000 ∧
    |(Transform2D.forward (Transform2D.from_rotation (Real.pi / 2))).y - 1| ≤ 1 / 1000 := by
  refine ⟨fun θ => rfl, ?_, ?_, ?_, ?_⟩ <;>
    norm_num [Transform2D.forward, Transform2D.from_rotation,
      goud_transform2d_forward, goud_transform2d_from_rotation,
      Real.cos_pi_div_two, Real.sin_pi_div_two]

end GoudEngine
